import Mathlib

/-!
Verification of the recording-session coordinator and recordings catalog of
the ccloom repository (src/src/App.tsx).  The embedding models:

* wall-clock instants by their UTC calendar fields (what `new Date()` /
  `Date.prototype.toISOString` exposes), together with a timezone offset
  `tz` in seconds (local time = UTC + tz, so `tz = 0` means the local zone
  is UTC);
* strings as `List Char` (all characters involved are ASCII, so JS UTF-16
  code-unit operations such as `slice(0,19)` coincide with character
  operations);
* the React component state as an explicit record and each handler as a
  state-transition function, with external outcomes (device acquisition,
  structured-write success, codec support) supplied through environment
  records;
* epoch arithmetic at second resolution via the standard civil-calendar
  day-count (the field-to-epoch map implemented by JS `Date` for in-range
  fields).
-/

/-- Calendar fields of an instant: what `toISOString` prints (UTC fields)
and what `new Date(y, m-1, d, h, mi, s)` consumes (local fields).
`month` and `day` are 1-based, matching the printed form. -/
structure DateTimeFields where
  year : Nat
  month : Nat
  day : Nat
  hour : Nat
  minute : Nat
  second : Nat
  ms : Nat
deriving Repr, DecidableEq

/-- Field ranges under which `toISOString` prints the 24-character
`YYYY-MM-DDTHH:MM:SS.sssZ` form (4-digit year, zero-padded components). -/
def fieldsOK (f : DateTimeFields) : Prop :=
  1 ≤ f.year ∧ f.year ≤ 9999 ∧
  1 ≤ f.month ∧ f.month ≤ 12 ∧
  1 ≤ f.day ∧ f.day ≤ 31 ∧
  f.hour ≤ 23 ∧ f.minute ≤ 59 ∧ f.second ≤ 59 ∧ f.ms ≤ 999

instance (f : DateTimeFields) : Decidable (fieldsOK f) := by
  unfold fieldsOK; infer_instance

/-- Days since 1970-01-01 of a civil date (Gregorian, proleptic), the
day-count used by JS `Date` UTC arithmetic.  Standard era/year-of-era
computation; valid for `year ≥ 1`. -/
def daysFromCivil (year month day : Nat) : Int :=
  let y := if month ≤ 2 then year - 1 else year
  let era := y / 400
  let yoe := y % 400
  let mp := if month > 2 then month - 3 else month + 9
  let doy := (153 * mp + 2) / 5 + (day - 1)
  let doe := yoe * 365 + yoe / 4 - yoe / 100 + doy
  (era * 146097 + doe : Int) - 719468

/-- Epoch seconds of an instant given by its UTC calendar fields
(millisecond component dropped: the system compares at second
resolution, which is all the filename encodes). -/
def fieldsToEpochUTC (f : DateTimeFields) : Int :=
  daysFromCivil f.year f.month f.day * 86400
    + f.hour * 3600 + f.minute * 60 + f.second

/-- Epoch seconds of the instant produced by the JS local-time constructor
`new Date(y, m-1, d, h, mi, s)` (App.tsx lines 193-200) when the local
zone is UTC+`tz` seconds: the instant whose local reading is the given
fields. -/
def localFieldsToEpoch (tz : Int) (f : DateTimeFields) : Int :=
  fieldsToEpochUTC f - tz

/-- Fixed-width zero-padded decimal digits, two wide (`n < 100`):
the form `toISOString` prints for month, day, hour, minute, second. -/
def natToDigits2 (n : Nat) : List Char :=
  [Nat.digitChar (n / 10), Nat.digitChar (n % 10)]

/-- Three-wide zero-padded digits (`n < 1000`): the milliseconds field. -/
def natToDigits3 (n : Nat) : List Char :=
  [Nat.digitChar (n / 100), Nat.digitChar (n / 10 % 10), Nat.digitChar (n % 10)]

/-- Four-wide zero-padded digits (`n < 10000`): the year field. -/
def natToDigits4 (n : Nat) : List Char :=
  [Nat.digitChar (n / 1000), Nat.digitChar (n / 100 % 10),
   Nat.digitChar (n / 10 % 10), Nat.digitChar (n % 10)]

/-- Characters of `Date.prototype.toISOString()`:
`YYYY-MM-DDTHH:MM:SS.sssZ` (UTC fields, zero-padded). -/
def isoChars (f : DateTimeFields) : List Char :=
  natToDigits4 f.year ++ '-' :: natToDigits2 f.month ++ '-' :: natToDigits2 f.day
    ++ 'T' :: natToDigits2 f.hour ++ ':' :: natToDigits2 f.minute
    ++ ':' :: natToDigits2 f.second ++ '.' :: natToDigits3 f.ms ++ ['Z']

/-- JS `replace(/[:.]/g, '-')` applied characterwise. -/
def mungeChar (c : Char) : Char :=
  if c = ':' || c = '.' then '-' else c

/-- JS `replace('T', '-')` with a string pattern: only the first
occurrence is replaced. -/
def replaceFirstT : List Char → List Char
  | [] => []
  | c :: cs => if c = 'T' then '-' :: cs else c :: replaceFirstT cs

/-- The `generateFilename` function (App.tsx lines 389-396), as a function of the
current UTC calendar fields: munge the ISO string (`[:.]` → `-`, first
`T` → `-`), keep the first 19 characters, wrap in
`recording-....webm`. -/
def generateFilename (f : DateTimeFields) : List Char :=
  let timestamp := (replaceFirstT ((isoChars f).map mungeChar)).take 19
  "recording-".data ++ timestamp ++ ".webm".data

/-- Consume an expected literal prefix. -/
def expectLit : List Char → List Char → Option (List Char)
  | [], cs => some cs
  | _ :: _, [] => none
  | p :: ps, c :: cs => if c = p then expectLit ps cs else none

/-- Consume one expected character. -/
def expectChar (ch : Char) : List Char → Option (List Char)
  | [] => none
  | c :: cs => if c = ch then some cs else none

/-- Consume exactly `n` decimal digits, accumulating their value. -/
def readDigitsAux : Nat → Nat → List Char → Option (Nat × List Char)
  | 0, acc, cs => some (acc, cs)
  | _ + 1, _, [] => none
  | n + 1, acc, c :: cs =>
    if c.isDigit then readDigitsAux n (acc * 10 + (c.toNat - 48)) cs else none

/-- Consume exactly `n` decimal digits (the regex `\d{n}`). -/
def readDigits (n : Nat) (cs : List Char) : Option (Nat × List Char) :=
  readDigitsAux n 0 cs

/-- Match, at the head of the list, the catalog's artifact pattern
`recording-(\d{4})-(\d{2})-(\d{2})-(\d{2})-(\d{2})-(\d{2})\.webm`
(App.tsx line 189); the pattern is unanchored so arbitrary trailing
characters are allowed. -/
def matchAt (cs : List Char) : Option DateTimeFields :=
  (expectLit "recording-".data cs).bind fun cs =>
  (readDigits 4 cs).bind fun (y, cs) =>
  (expectChar '-' cs).bind fun cs =>
  (readDigits 2 cs).bind fun (mo, cs) =>
  (expectChar '-' cs).bind fun cs =>
  (readDigits 2 cs).bind fun (d, cs) =>
  (expectChar '-' cs).bind fun cs =>
  (readDigits 2 cs).bind fun (h, cs) =>
  (expectChar '-' cs).bind fun cs =>
  (readDigits 2 cs).bind fun (mi, cs) =>
  (expectChar '-' cs).bind fun cs =>
  (readDigits 2 cs).bind fun (sec, cs) =>
  (expectLit ".webm".data cs).map fun _ =>
  { year := y, month := mo, day := d, hour := h, minute := mi, second := sec,
    ms := 0 }

/-- JS `String.prototype.match` with an unanchored regex: first match over
all start positions, leftmost wins. -/
def findMatch : List Char → Option DateTimeFields
  | [] => none
  | c :: cs =>
    match matchAt (c :: cs) with
    | some f => some f
    | none => findMatch cs

/-- The timestamp the catalog derives from a matched filename, as epoch
seconds: the parsed numeric groups interpreted as local time. -/
def catalogParsedTimestamp (tz : Int) (name : List Char) : Option Int :=
  (findMatch name).map (localFieldsToEpoch tz)

/-! ### Recordings catalog (`loadRecordings`, App.tsx lines 168-235) -/

/-- Kind of a directory entry, as reported by `entry.kind`. -/
inductive EntryKind
  | file
  | directory
deriving Repr, DecidableEq

/-- One entry of the active folder, with the data the catalog reads from
it: its name, the `File` metadata (`size`, `lastModified`, the latter in
epoch seconds here), and whether `getFile()` succeeds (`readable`). -/
structure DirEntry where
  kind : EntryKind
  name : List Char
  size : Nat
  lastModified : Int
  readable : Bool
deriving Repr, DecidableEq

/-- Catalog record built per artifact (the `RecordingMetadata` interface,
App.tsx lines 19-24, minus the opaque file handle). -/
structure RecordingMetadata where
  filename : List Char
  timestamp : Int
  size : Nat
deriving Repr, DecidableEq

/-- The filter `entry.name.endsWith('.webm')` (App.tsx line 182). -/
def webmSuffix (name : List Char) : Bool :=
  ".webm".data.isSuffixOf name

/-- Timestamp derivation for one readable entry (App.tsx lines 188-204):
parse the filename pattern as a local-time instant, else fall back to the
file's modification time. -/
def entryTimestamp (tz : Int) (e : DirEntry) : Int :=
  match findMatch e.name with
  | some f => localFieldsToEpoch tz f
  | none => e.lastModified

/-- Per-entry step of the catalog scan (App.tsx lines 181-216): files with
the `.webm` suffix are taken; unreadable ones are skipped with a warning;
the rest yield a metadata record. -/
def processEntry (tz : Int) (e : DirEntry) : Option RecordingMetadata :=
  match e.kind with
  | .directory => none
  | .file =>
    if webmSuffix e.name then
      if e.readable then
        some { filename := e.name, timestamp := entryTimestamp tz e, size := e.size }
      else none
    else none

/-- Stable insertion step: place `r` after every element with a strictly
greater timestamp (ties keep their existing relative position, as the
stable JS sort does). -/
def insertByTimestampDesc (r : RecordingMetadata) :
    List RecordingMetadata → List RecordingMetadata
  | [] => [r]
  | x :: xs =>
    if r.timestamp < x.timestamp then x :: insertByTimestampDesc r xs
    else r :: x :: xs

/-- The call `recordingsList.sort((a, b) => b.timestamp.getTime() - a.timestamp.getTime())`
(App.tsx line 220): a stable sort, descending by timestamp, modelled as
stable insertion sort. -/
def sortByTimestampDesc : List RecordingMetadata → List RecordingMetadata
  | [] => []
  | x :: xs => insertByTimestampDesc x (sortByTimestampDesc xs)

/-- The `loadRecordings` callback (App.tsx lines 168-235): with no live folder handle
the result is empty; otherwise scan every entry and sort newest-first. -/
def loadRecordings (tz : Int) : Option (List DirEntry) → List RecordingMetadata
  | none => []
  | some entries => sortByTimestampDesc (entries.filterMap (processEntry tz))

/-! ### Session coordinator state and handlers (App.tsx lines 52-84, 254-585) -/

/-- The live screen-capture stream (`screenStream`); `hasVideoTrack`
records whether `getVideoTracks()` is non-empty (the guard at
App.tsx line 462). -/
structure ScreenStream where
  hasVideoTrack : Bool
deriving Repr, DecidableEq

/-- A track of the combined stream fed to the recorder. -/
inductive Track
  | screenVideo
  | cameraVideo
  | micAudio
deriving Repr, DecidableEq

/-- The user-visible error messages set by the session handlers
(App.tsx lines 445, 451, 550, 566-573). -/
inductive ErrorMsg
  | noSourceEnabled
  | screenUnavailable
  | permissionDenied
  | deviceNotFound
  | deviceBusy
  | startOther
  | recorderError
deriving Repr, DecidableEq

/-- Encoding identifier chosen at session start (App.tsx lines 494-503);
`defaultMime` models the empty string fallback. -/
inductive MimeType
  | vp9
  | vp8
  | webm
  | defaultMime
deriving Repr, DecidableEq

/-- The `MediaRecorder` created at session start, as the session sees it:
its pinned encoding identifier. -/
structure RecorderInfo where
  mime : MimeType
deriving Repr, DecidableEq

/-- Exception names thrown by `getUserMedia`, as discriminated by the
catch block at App.tsx lines 564-575. -/
inductive AcquireError
  | notAllowed
  | notFound
  | notReadable
  | other
deriving Repr, DecidableEq

/-- Component state relevant to the session coordinator: the three source
toggles with their persisted preference slots, the live screen stream,
the recording flags, chunk sequence (as chunk byte sizes), recorder and
stream refs, the interval-timer handle, and the elapsed counter. -/
structure AppState where
  isMicEnabled : Bool
  isCameraEnabled : Bool
  isScreenEnabled : Bool
  micPref : Bool
  camPref : Bool
  screenStream : Option ScreenStream
  isRecording : Bool
  recordingError : Option ErrorMsg
  saveSuccess : Bool
  recordedChunks : List Nat
  mediaRecorder : Option RecorderInfo
  mediaStream : Option (List Track)
  recordingTimer : Bool
  recordingDuration : Nat
deriving Repr, DecidableEq

/-- Environment outcomes consumed by `handleStartRecording`: whether the
camera/microphone `getUserMedia` calls throw (and, on success, whether the
stream carries the requested track), and which encodings
`MediaRecorder.isTypeSupported` accepts. -/
structure StartEnv where
  cameraOutcome : Except AcquireError Bool
  micOutcome : Except AcquireError Bool
  vp9Supported : Bool
  vp8Supported : Bool
  webmSupported : Bool
deriving Repr

/-- The `handleToggleMic` handler (App.tsx lines 255-259): flip the boolean and write
the new value to the preference store. -/
def handleToggleMic (s : AppState) : AppState :=
  { s with isMicEnabled := !s.isMicEnabled, micPref := !s.isMicEnabled }

/-- The `handleToggleCamera` handler (App.tsx lines 262-266). -/
def handleToggleCamera (s : AppState) : AppState :=
  { s with isCameraEnabled := !s.isCameraEnabled, camPref := !s.isCameraEnabled }

/-- The microphone toggle control as rendered (App.tsx lines 769-771):
the button carries `disabled={isRecording}`, so a click reaches
`handleToggleMic` only while not recording. -/
def micToggleClick (s : AppState) : AppState :=
  if s.isRecording then s else handleToggleMic s

/-- The camera toggle control as rendered (App.tsx lines 812-814). -/
def cameraToggleClick (s : AppState) : AppState :=
  if s.isRecording then s else handleToggleCamera s

/-- The Start control's presence (App.tsx line 908): the markup renders
the Start button only when `!isRecording` (otherwise the Stop button
takes its place), so start cannot be invoked through the UI while a
session is recording. -/
def startControlRendered (s : AppState) : Bool :=
  !s.isRecording

/-- Result of building the combined track list, with ghost flags
recording whether the camera / microphone `getUserMedia` calls were
made. -/
structure BuildResult where
  tracks : List Track
  cameraAcquired : Bool
  micAcquired : Bool
deriving Repr, DecidableEq

/-- Track-set construction at session start (App.tsx lines 457-487):
screen video wins when screen is enabled with a live stream (camera then
never acquired); else the camera is acquired if enabled; the microphone
is acquired if enabled.  Acquisition failures propagate as exceptions. -/
def buildTracks (s : AppState) (env : StartEnv) : Except AcquireError BuildResult :=
  let videoStep : Except AcquireError (List Track × Bool) :=
    match s.isScreenEnabled, s.screenStream with
    | true, some st =>
      .ok ((if st.hasVideoTrack then [Track.screenVideo] else []), false)
    | _, _ =>
      if s.isCameraEnabled then
        match env.cameraOutcome with
        | .error e => .error e
        | .ok hasTrack => .ok ((if hasTrack then [Track.cameraVideo] else []), true)
      else .ok ([], false)
  match videoStep with
  | .error e => .error e
  | .ok (vts, camAcq) =>
    if s.isMicEnabled then
      match env.micOutcome with
      | .error e => .error e
      | .ok hasTrack =>
        .ok ⟨vts ++ (if hasTrack then [Track.micAudio] else []), camAcq, true⟩
    else .ok ⟨vts, camAcq, false⟩

/-- Encoding selection (App.tsx lines 494-503): vp9, else vp8, else plain
webm, else the platform default. -/
def chooseMime (env : StartEnv) : MimeType :=
  if env.vp9Supported then .vp9
  else if env.vp8Supported then .vp8
  else if env.webmSupported then .webm
  else .defaultMime

/-- The catch block of `handleStartRecording` (App.tsx lines 564-575). -/
def acquireErrorMsg : AcquireError → ErrorMsg
  | .notAllowed => .permissionDenied
  | .notFound => .deviceNotFound
  | .notReadable => .deviceBusy
  | .other => .startOther

/-- The `handleStartRecording` handler (App.tsx lines 434-577): reset the error /
success messages and the chunk sequence, validate that a source is
enabled and that an enabled screen has a live stream, build the track
set, pick the encoding, create the recorder and start it with the
one-second flush interval and the duration timer. -/
def handleStartRecording (s : AppState) (env : StartEnv) : AppState :=
  let s := { s with recordingError := none, saveSuccess := false,
                    recordedChunks := [] }
  let hasVideoSource := s.isCameraEnabled || s.isScreenEnabled
  let hasAudioSource := s.isMicEnabled
  if !hasVideoSource && !hasAudioSource then
    { s with recordingError := some .noSourceEnabled }
  else if s.isScreenEnabled && !s.screenStream.isSome then
    { s with recordingError := some .screenUnavailable }
  else
    match buildTracks s env with
    | .error e => { s with recordingError := some (acquireErrorMsg e) }
    | .ok bt =>
      { s with
        mediaStream := some bt.tracks
        mediaRecorder := some { mime := chooseMime env }
        isRecording := true
        recordingDuration := 0
        recordingTimer := true }

/-- The `mediaRecorder.ondataavailable` handler (App.tsx lines 511-515): append the
chunk when it is non-empty. -/
def mediaRecorderOnData (s : AppState) (chunkSize : Nat) : AppState :=
  if chunkSize > 0 then
    { s with recordedChunks := s.recordedChunks ++ [chunkSize] }
  else s

/-- The `mediaRecorder.onerror` handler (App.tsx lines 548-552): surface a session
error and clear the recording flag.  Nothing else is touched: in
particular the interval timer is not cleared and no save is invoked. -/
def mediaRecorderOnError (s : AppState) : AppState :=
  { s with recordingError := some .recorderError, isRecording := false }

/-- The `mediaRecorder.onstop` handler (App.tsx lines 518-545): clear the interval
timer, drop the stream reference (stopping its non-screen tracks), invoke
`saveRecording` on the concatenated chunks only when the chunk sequence
is non-empty, then reset the chunk sequence and the elapsed counter.  The
second component is the blob handed to persistence, `none` when
persistence is skipped. -/
def mediaRecorderOnStop (s : AppState) : AppState × Option (List Nat) :=
  let s := { s with recordingTimer := false, mediaStream := none }
  let blob := if s.recordedChunks.isEmpty then none else some s.recordedChunks
  ({ s with recordedChunks := [], recordingDuration := 0 }, blob)

/-- The `handleStopRecording` handler (App.tsx lines 580-585): ask the recorder to
finalize (its `onstop` then runs asynchronously) and clear the recording
flag. -/
def handleStopRecording (s : AppState) : AppState :=
  { s with isRecording := false }

/-! ### Persistence (`saveRecording`, App.tsx lines 399-431) -/

/-- Which persistence path completed. -/
inductive SavePath
  | structured
  | download
deriving Repr, DecidableEq

/-- Environment for one persistence call: whether a live folder handle
exists and whether the structured write path throws, plus the wall clock
read by `generateFilename`. -/
structure SaveEnv where
  folderLive : Bool
  writeThrows : Bool
  now : DateTimeFields
deriving Repr, DecidableEq

/-- Outcome of `saveRecording`: the path used, the filename written or
downloaded, the bytes handed to that path, and whether the success
message was set. -/
structure SaveOutcome where
  path : SavePath
  filename : List Char
  payload : List Nat
  messageSet : Bool
deriving Repr, DecidableEq

/-- The `saveRecording` callback (App.tsx lines 399-431): generate the filename once;
try the structured write through the folder handle when one is live,
returning on success; on any failure of that path, or with no live
handle, fall through to the download path with the same filename.  Both
paths set the success message. -/
def saveRecording (env : SaveEnv) (blob : List Nat) : SaveOutcome :=
  let filename := generateFilename env.now
  if env.folderLive then
    if env.writeThrows then
      { path := .download, filename := filename, payload := blob, messageSet := true }
    else
      { path := .structured, filename := filename, payload := blob, messageSet := true }
  else
    { path := .download, filename := filename, payload := blob, messageSet := true }

/-! ### Round-trip lemmas -/

lemma digitChar_spec (d : Nat) (h : d < 10) :
    (Nat.digitChar d).isDigit = true ∧ (Nat.digitChar d).toNat - 48 = d ∧
    mungeChar (Nat.digitChar d) = Nat.digitChar d ∧ Nat.digitChar d ≠ 'T' := by
  interval_cases d <;> exact ⟨by decide, by decide, by decide, by decide⟩

lemma readDigitsAux_digit (n acc d : Nat) (cs : List Char) (h : d < 10) :
    readDigitsAux (n + 1) acc (Nat.digitChar d :: cs)
      = readDigitsAux n (acc * 10 + d) cs := by
  have h1 := (digitChar_spec d h).1
  have h2 := (digitChar_spec d h).2.1
  simp [readDigitsAux, h1, h2]

lemma readDigits_natToDigits2 (n : Nat) (h : n < 100) (rest : List Char) :
    readDigits 2 (natToDigits2 n ++ rest) = some (n, rest) := by
  show readDigitsAux 2 0 _ = _
  simp only [natToDigits2, List.cons_append, List.nil_append]
  rw [readDigitsAux_digit _ _ _ _ (by omega), readDigitsAux_digit _ _ _ _ (by omega)]
  simp [readDigitsAux]
  omega

lemma readDigits_natToDigits4 (n : Nat) (h : n < 10000) (rest : List Char) :
    readDigits 4 (natToDigits4 n ++ rest) = some (n, rest) := by
  show readDigitsAux 4 0 _ = _
  simp only [natToDigits4, List.cons_append, List.nil_append]
  rw [readDigitsAux_digit _ _ _ _ (by omega), readDigitsAux_digit _ _ _ _ (by omega),
      readDigitsAux_digit _ _ _ _ (by omega), readDigitsAux_digit _ _ _ _ (by omega)]
  simp [readDigitsAux]
  omega

lemma expectLit_append (p rest : List Char) : expectLit p (p ++ rest) = some rest := by
  induction p with
  | nil => rfl
  | cons c cs ih => simp [expectLit, ih]

lemma expectChar_cons (c : Char) (rest : List Char) :
    expectChar c (c :: rest) = some rest := by
  simp [expectChar]

lemma map_munge_digits2 (n : Nat) (h : n < 100) :
    (natToDigits2 n).map mungeChar = natToDigits2 n := by
  have h1 := (digitChar_spec (n / 10) (by omega)).2.2.1
  have h2 := (digitChar_spec (n % 10) (by omega)).2.2.1
  simp [natToDigits2, h1, h2]

lemma map_munge_digits3 (n : Nat) (h : n < 1000) :
    (natToDigits3 n).map mungeChar = natToDigits3 n := by
  have h1 := (digitChar_spec (n / 100) (by omega)).2.2.1
  have h2 := (digitChar_spec (n / 10 % 10) (by omega)).2.2.1
  have h3 := (digitChar_spec (n % 10) (by omega)).2.2.1
  simp [natToDigits3, h1, h2, h3]

lemma map_munge_digits4 (n : Nat) (h : n < 10000) :
    (natToDigits4 n).map mungeChar = natToDigits4 n := by
  have h1 := (digitChar_spec (n / 1000) (by omega)).2.2.1
  have h2 := (digitChar_spec (n / 100 % 10) (by omega)).2.2.1
  have h3 := (digitChar_spec (n / 10 % 10) (by omega)).2.2.1
  have h4 := (digitChar_spec (n % 10) (by omega)).2.2.1
  simp [natToDigits4, h1, h2, h3, h4]

lemma digits2_no_T (n : Nat) (h : n < 100) : ∀ c ∈ natToDigits2 n, c ≠ 'T' := by
  intro c hc
  simp [natToDigits2] at hc
  rcases hc with rfl | rfl
  · exact (digitChar_spec (n / 10) (by omega)).2.2.2
  · exact (digitChar_spec (n % 10) (by omega)).2.2.2

lemma digits4_no_T (n : Nat) (h : n < 10000) : ∀ c ∈ natToDigits4 n, c ≠ 'T' := by
  intro c hc
  simp [natToDigits4] at hc
  rcases hc with rfl | rfl | rfl | rfl
  · exact (digitChar_spec (n / 1000) (by omega)).2.2.2
  · exact (digitChar_spec (n / 100 % 10) (by omega)).2.2.2
  · exact (digitChar_spec (n / 10 % 10) (by omega)).2.2.2
  · exact (digitChar_spec (n % 10) (by omega)).2.2.2

lemma replaceFirstT_append (l₁ l₂ : List Char) (h : ∀ c ∈ l₁, c ≠ 'T') :
    replaceFirstT (l₁ ++ l₂) = l₁ ++ replaceFirstT l₂ := by
  induction l₁ with
  | nil => rfl
  | cons c cs ih =>
    simp only [List.cons_append, replaceFirstT, List.append_eq]
    rw [if_neg (by simpa using h c (by simp)), ih (fun x hx => h x (by simp [hx]))]

/-- The 19 characters the filename keeps from the munged ISO string. -/
def stampChars (f : DateTimeFields) : List Char :=
  natToDigits4 f.year ++ '-' :: natToDigits2 f.month ++ '-' :: natToDigits2 f.day
    ++ '-' :: natToDigits2 f.hour ++ '-' :: natToDigits2 f.minute
    ++ '-' :: natToDigits2 f.second

lemma generateFilename_eq (f : DateTimeFields) (hf : fieldsOK f) :
    generateFilename f = "recording-".data ++ stampChars f ++ ".webm".data := by
  obtain ⟨hy1, hy2, hm1, hm2, hd1, hd2, hh, hmi, hs, hms⟩ := hf
  have my : f.year < 10000 := by omega
  have mm : f.month < 100 := by omega
  have md : f.day < 100 := by omega
  have mh : f.hour < 100 := by omega
  have mmi : f.minute < 100 := by omega
  have ms : f.second < 100 := by omega
  have mms : f.ms < 1000 := by omega
  have hmm : mungeChar '-' = '-' := rfl
  have hmT : mungeChar 'T' = 'T' := rfl
  have hmc : mungeChar ':' = '-' := rfl
  have hmd : mungeChar '.' = '-' := rfl
  have hmZ : mungeChar 'Z' = 'Z' := rfl
  have hz : generateFilename f
      = "recording-".data ++ (replaceFirstT ((isoChars f).map mungeChar)).take 19
        ++ ".webm".data := rfl
  have hmap : (isoChars f).map mungeChar
      = natToDigits4 f.year ++ '-' :: natToDigits2 f.month ++ '-' :: natToDigits2 f.day
        ++ 'T' :: natToDigits2 f.hour ++ '-' :: natToDigits2 f.minute
        ++ '-' :: natToDigits2 f.second ++ '-' :: natToDigits3 f.ms ++ ['Z'] := by
    simp [isoChars, hmm, hmT, hmc, hmd, hmZ,
      map_munge_digits4 _ my, map_munge_digits2 _ mm, map_munge_digits2 _ md,
      map_munge_digits2 _ mh, map_munge_digits2 _ mmi, map_munge_digits2 _ ms,
      map_munge_digits3 _ mms]
  have hnoT : ∀ c ∈ natToDigits4 f.year ++ '-' :: natToDigits2 f.month
      ++ '-' :: natToDigits2 f.day, c ≠ 'T' := by
    intro c hc
    simp at hc
    rcases hc with hc | rfl | hc | rfl | hc
    · exact digits4_no_T _ my c hc
    · decide
    · exact digits2_no_T _ mm c hc
    · decide
    · exact digits2_no_T _ md c hc
  have hrep : replaceFirstT
      (natToDigits4 f.year ++ '-' :: natToDigits2 f.month ++ '-' :: natToDigits2 f.day
        ++ 'T' :: natToDigits2 f.hour ++ '-' :: natToDigits2 f.minute
        ++ '-' :: natToDigits2 f.second ++ '-' :: natToDigits3 f.ms ++ ['Z'])
      = stampChars f ++ '-' :: natToDigits3 f.ms ++ ['Z'] := by
    have := replaceFirstT_append
      (natToDigits4 f.year ++ '-' :: natToDigits2 f.month ++ '-' :: natToDigits2 f.day)
      ('T' :: natToDigits2 f.hour ++ '-' :: natToDigits2 f.minute
        ++ '-' :: natToDigits2 f.second ++ '-' :: natToDigits3 f.ms ++ ['Z']) hnoT
    simp only [List.append_assoc, List.cons_append] at this ⊢
    rw [this]
    simp [replaceFirstT, stampChars, List.append_assoc]
  have hlen : (stampChars f).length = 19 := by
    simp [stampChars, natToDigits2, natToDigits4]
  have htake : List.take 19 (stampChars f ++ '-' :: natToDigits3 f.ms ++ ['Z'])
      = stampChars f := List.take_left' hlen
  rw [hz, hmap, hrep, htake]

lemma expectLit_self (p : List Char) : expectLit p p = some [] := by
  have h := expectLit_append p []
  simpa using h

lemma matchAt_generateFilename (f : DateTimeFields) (hf : fieldsOK f) :
    matchAt (generateFilename f) = some { f with ms := 0 } := by
  obtain ⟨hy1, hy2, hm1, hm2, hd1, hd2, hh, hmi, hs, hms⟩ := hf
  rw [generateFilename_eq f ⟨hy1, hy2, hm1, hm2, hd1, hd2, hh, hmi, hs, hms⟩]
  unfold matchAt
  rw [List.append_assoc, expectLit_append]
  simp only [stampChars, List.append_assoc, List.cons_append, Option.some_bind]
  rw [readDigits_natToDigits4 _ (by omega)]
  simp only [Option.some_bind]
  rw [expectChar_cons]
  simp only [Option.some_bind]
  rw [readDigits_natToDigits2 _ (by omega)]
  simp only [Option.some_bind]
  rw [expectChar_cons]
  simp only [Option.some_bind]
  rw [readDigits_natToDigits2 _ (by omega)]
  simp only [Option.some_bind]
  rw [expectChar_cons]
  simp only [Option.some_bind]
  rw [readDigits_natToDigits2 _ (by omega)]
  simp only [Option.some_bind]
  rw [expectChar_cons]
  simp only [Option.some_bind]
  rw [readDigits_natToDigits2 _ (by omega)]
  simp only [Option.some_bind]
  rw [expectChar_cons]
  simp only [Option.some_bind]
  rw [readDigits_natToDigits2 _ (by omega)]
  simp only [Option.some_bind]
  rw [expectLit_self]
  rfl

lemma findMatch_eq_of_matchAt (l : List Char) (r : DateTimeFields)
    (h : matchAt l = some r) : findMatch l = some r := by
  cases l with
  | nil =>
    have : matchAt ([] : List Char) = none := rfl
    rw [this] at h
    cases h
  | cons c cs =>
    rw [findMatch, h]

lemma findMatch_generateFilename (f : DateTimeFields) (hf : fieldsOK f) :
    findMatch (generateFilename f) = some { f with ms := 0 } :=
  findMatch_eq_of_matchAt _ _ (matchAt_generateFilename f hf)

/-! ### Sorting lemmas -/

lemma mem_insertByTimestampDesc (r a : RecordingMetadata)
    (l : List RecordingMetadata) :
    a ∈ insertByTimestampDesc r l ↔ a = r ∨ a ∈ l := by
  induction l with
  | nil => simp [insertByTimestampDesc]
  | cons x xs ih =>
    by_cases hx : r.timestamp < x.timestamp
    · simp only [insertByTimestampDesc, if_pos hx, List.mem_cons, ih]
      tauto
    · simp only [insertByTimestampDesc, if_neg hx, List.mem_cons]

lemma pairwise_insertByTimestampDesc (r : RecordingMetadata)
    (l : List RecordingMetadata)
    (h : List.Pairwise (fun a b => b.timestamp ≤ a.timestamp) l) :
    List.Pairwise (fun a b => b.timestamp ≤ a.timestamp)
      (insertByTimestampDesc r l) := by
  induction l with
  | nil => simp [insertByTimestampDesc]
  | cons x xs ih =>
    rw [List.pairwise_cons] at h
    obtain ⟨hhead, htail⟩ := h
    by_cases hcmp : r.timestamp < x.timestamp
    · rw [insertByTimestampDesc, if_pos hcmp, List.pairwise_cons]
      refine ⟨fun y hy => ?_, ih htail⟩
      rcases (mem_insertByTimestampDesc r y xs).1 hy with rfl | hy'
      · exact le_of_lt hcmp
      · exact hhead y hy'
    · rw [insertByTimestampDesc, if_neg hcmp, List.pairwise_cons]
      refine ⟨fun y hy => ?_, List.pairwise_cons.2 ⟨hhead, htail⟩⟩
      rcases List.mem_cons.1 hy with rfl | hy'
      · exact not_lt.1 hcmp
      · exact le_trans (hhead y hy') (not_lt.1 hcmp)

lemma pairwise_sortByTimestampDesc (l : List RecordingMetadata) :
    List.Pairwise (fun a b => b.timestamp ≤ a.timestamp)
      (sortByTimestampDesc l) := by
  induction l with
  | nil => simp [sortByTimestampDesc]
  | cons x xs ih => exact pairwise_insertByTimestampDesc x _ ih

lemma mem_sortByTimestampDesc (a : RecordingMetadata)
    (l : List RecordingMetadata) :
    a ∈ sortByTimestampDesc l ↔ a ∈ l := by
  induction l with
  | nil => simp [sortByTimestampDesc]
  | cons x xs ih => simp [sortByTimestampDesc, mem_insertByTimestampDesc, ih]

/-! ### Claim theorems -/

/-- Concrete start-while-recording state: microphone-only session already
recording, with a non-empty chunk sequence. -/
def busyState : AppState :=
  { isMicEnabled := true, isCameraEnabled := false, isScreenEnabled := false,
    micPref := true, camPref := false, screenStream := none,
    isRecording := true, recordingError := none, saveSuccess := false,
    recordedChunks := [4096, 2048], mediaRecorder := some ⟨.vp9⟩,
    mediaStream := some [.micAudio], recordingTimer := true,
    recordingDuration := 7 }

/-- An environment where every acquisition succeeds. -/
def okEnv : StartEnv :=
  { cameraOutcome := .ok true, micOutcome := .ok true,
    vp9Supported := true, vp8Supported := true, webmSupported := true }

/-- C1 counterexample: `generateFilename` encodes the UTC reading of the
instant (via `toISOString`) while the catalog parses the filename digits
as local time, so with a UTC offset of +3600 s the instant
1970-01-01T00:00:00Z round-trips to epoch -3600, not 0: the claimed
round-trip equality fails. -/
theorem c1_generateFilename_roundtrip_cex :
    ¬ (catalogParsedTimestamp 3600 (generateFilename ⟨1970, 1, 1, 0, 0, 0, 0⟩)
        = some (fieldsToEpochUTC ⟨1970, 1, 1, 0, 0, 0, 0⟩)) := by
  decide

/-- C1 (amended): for every in-range wall-clock instant and every local
UTC offset, the catalog's parse of the generated filename recovers the
instant shifted down by the offset; it equals the original instant
exactly when the local zone is UTC. -/
theorem c1_generateFilename_roundtrip_amended (f : DateTimeFields) (tz : Int)
    (hf : fieldsOK f) :
    catalogParsedTimestamp tz (generateFilename f)
      = some (fieldsToEpochUTC f - tz) := by
  unfold catalogParsedTimestamp
  rw [findMatch_generateFilename f hf]
  rfl

/-- C1 witness: the amended statement instantiated at 2024-03-01T09:00:00Z
with offset +3600 s. -/
theorem c1_generateFilename_roundtrip_amended_witness :
    catalogParsedTimestamp 3600 (generateFilename ⟨2024, 3, 1, 9, 0, 0, 250⟩)
      = some (fieldsToEpochUTC ⟨2024, 3, 1, 9, 0, 0, 250⟩ - 3600) :=
  c1_generateFilename_roundtrip_amended ⟨2024, 3, 1, 9, 0, 0, 250⟩ 3600 (by decide)

/-- C2 counterexample: with a session already recording and the
microphone enabled, invoking the start handler is not rejected: it
reports no validation error, creates a new recorder, and clears the
previously accumulated chunk sequence. -/
theorem c2_start_while_recording_cex :
    (handleStartRecording busyState okEnv).recordingError = none ∧
    (handleStartRecording busyState okEnv).mediaRecorder.isSome = true ∧
    (handleStartRecording busyState okEnv).recordedChunks = [] ∧
    busyState.recordedChunks ≠ [] ∧ busyState.isRecording = true := by
  decide

/-- C2 (amended): the start handler performs no non-idle check; start
while recording is prevented only by the UI, which renders the Stop
control in place of Start.  The handler itself unconditionally clears the
chunk sequence and, when source validation and acquisition succeed,
starts a new session without reporting a validation error. -/
theorem c2_start_while_recording_amended (s : AppState) (env : StartEnv)
    (hrec : s.isRecording = true) (hmic : s.isMicEnabled = true)
    (hcam : s.isCameraEnabled = false) (hscr : s.isScreenEnabled = false)
    (henv : env.micOutcome = .ok true) :
    startControlRendered s = false ∧
    (handleStartRecording s env).recordedChunks = [] ∧
    (handleStartRecording s env).recordingError = none ∧
    (handleStartRecording s env).mediaRecorder.isSome = true := by
  obtain ⟨mic, cam, scr, mp, cp, ss, rec, err, sv, ch, mr, mstr, tim, dur⟩ := s
  simp only at hrec hmic hcam hscr
  subst hrec hmic hcam hscr
  cases ss <;>
    simp [startControlRendered, handleStartRecording, buildTracks, henv]

/-- C2 witness: the amended statement at the concrete recording state. -/
theorem c2_start_while_recording_amended_witness :
    startControlRendered busyState = false ∧
    (handleStartRecording busyState okEnv).recordedChunks = [] ∧
    (handleStartRecording busyState okEnv).recordingError = none ∧
    (handleStartRecording busyState okEnv).mediaRecorder.isSome = true :=
  c2_start_while_recording_amended busyState okEnv rfl rfl rfl rfl rfl

/-- C3: the track set built at session start never contains both a
screen video track and a camera video track; when screen is enabled with
a live stream the camera is never acquired, and the stream's video track
(when present) is the one used. -/
theorem c3_screen_camera_exclusive (s : AppState) (env : StartEnv)
    (bt : BuildResult) (h : buildTracks s env = .ok bt) :
    ¬ (Track.screenVideo ∈ bt.tracks ∧ Track.cameraVideo ∈ bt.tracks) ∧
    (∀ st, s.isScreenEnabled = true → s.screenStream = some st →
      bt.cameraAcquired = false ∧
      (st.hasVideoTrack = true → Track.screenVideo ∈ bt.tracks)) := by
  obtain ⟨mic, cam, scr, mp, cp, ss, rec, err, sv, ch, mr, mstr, tim, dur⟩ := s
  obtain ⟨camOut, micOut, v9, v8, w⟩ := env
  cases scr <;> rcases ss with _ | ⟨hv⟩ <;> cases cam <;> cases mic <;>
    rcases camOut with ce | cb <;> rcases micOut with me | mb <;>
      (try cases hv) <;> (try cases cb) <;> (try cases mb) <;>
        simp only [buildTracks] at h <;>
          (try cases h) <;> simp_all

/-- Screen-plus-mic state with a live screen stream. -/
def screenMicState : AppState :=
  { isMicEnabled := true, isCameraEnabled := true, isScreenEnabled := true,
    micPref := true, camPref := true, screenStream := some ⟨true⟩,
    isRecording := false, recordingError := none, saveSuccess := false,
    recordedChunks := [], mediaRecorder := none, mediaStream := none,
    recordingTimer := false, recordingDuration := 0 }

/-- C3 witness: the exclusivity statement at a screen-plus-camera-plus-mic
state with a live screen stream. -/
theorem c3_screen_camera_exclusive_witness :
    ¬ (Track.screenVideo ∈ ([Track.screenVideo, Track.micAudio] : List Track) ∧
       Track.cameraVideo ∈ ([Track.screenVideo, Track.micAudio] : List Track)) ∧
    (⟨[Track.screenVideo, Track.micAudio], false, true⟩ : BuildResult).cameraAcquired
      = false := by
  have h := c3_screen_camera_exclusive screenMicState okEnv
    ⟨[Track.screenVideo, Track.micAudio], false, true⟩ rfl
  exact ⟨h.1, (h.2 ⟨true⟩ rfl rfl).1⟩

/-- C4: on finalize, persistence receives the concatenated chunk
sequence exactly when it is non-empty and is skipped entirely when it is
empty; the chunk sequence and elapsed counter are then reset and the
flush timer cleared, so one session finalization yields at most one
persisted artifact. -/
theorem c4_onstop_persistence (s : AppState) :
    (mediaRecorderOnStop s).2
      = (if s.recordedChunks.isEmpty then none else some s.recordedChunks) ∧
    (mediaRecorderOnStop s).1.recordedChunks = [] ∧
    (mediaRecorderOnStop s).1.recordingDuration = 0 ∧
    (mediaRecorderOnStop s).1.recordingTimer = false := by
  unfold mediaRecorderOnStop
  simp

/-- C5 counterexample state. -/
def erroringState : AppState :=
  { isMicEnabled := true, isCameraEnabled := false, isScreenEnabled := false,
    micPref := true, camPref := false, screenStream := none,
    isRecording := true, recordingError := none, saveSuccess := false,
    recordedChunks := [1024], mediaRecorder := some ⟨.vp9⟩,
    mediaStream := some [.micAudio], recordingTimer := true,
    recordingDuration := 3 }

/-- C5 counterexample: the encoder-error handler clears the recording
flag but does not halt the elapsed-time clock — the interval timer is
still installed after the handler runs. -/
theorem c5_onerror_timer_cex :
    (mediaRecorderOnError erroringState).recordingTimer = true ∧
    erroringState.recordingTimer = true ∧
    (mediaRecorderOnError erroringState).isRecording = false := by
  decide

/-- C5 (amended): the encoder-error handler surfaces a session-level
error and clears the recording flag, leaves the timer, elapsed counter,
chunk sequence, recorder and save flag untouched, and attempts no
persistence itself; the elapsed-time clock is cleared only by the stop
path. -/
theorem c5_onerror_amended (s : AppState) :
    (mediaRecorderOnError s).isRecording = false ∧
    (mediaRecorderOnError s).recordingError = some ErrorMsg.recorderError ∧
    (mediaRecorderOnError s).recordingTimer = s.recordingTimer ∧
    (mediaRecorderOnError s).recordingDuration = s.recordingDuration ∧
    (mediaRecorderOnError s).recordedChunks = s.recordedChunks ∧
    (mediaRecorderOnError s).mediaRecorder = s.mediaRecorder ∧
    (mediaRecorderOnError s).saveSuccess = s.saveSuccess := by
  unfold mediaRecorderOnError
  simp

/-- C6: persistence computes the filename once; the structured path
completes exactly when a live folder handle exists and the write does
not throw, otherwise the download fallback runs with the identical
filename and payload, and both paths set the success message. -/
theorem c6_save_fallback (env : SaveEnv) (blob : List Nat) :
    (saveRecording env blob).filename = generateFilename env.now ∧
    (saveRecording env blob).messageSet = true ∧
    (saveRecording env blob).payload = blob ∧
    ((saveRecording env blob).path = SavePath.download
      ↔ (env.folderLive = false ∨ env.writeThrows = true)) := by
  obtain ⟨fl, wt, now⟩ := env
  cases fl <;> cases wt <;> simp [saveRecording]

/-- January example entry. -/
def janEntry : DirEntry :=
  { kind := .file, name := "recording-2024-01-05-10-30-00.webm".data,
    size := 1000, lastModified := 0, readable := true }

/-- March example entry. -/
def marEntry : DirEntry :=
  { kind := .file, name := "recording-2024-03-01-09-00-00.webm".data,
    size := 2000, lastModified := 0, readable := true }

/-- C7: every catalog refresh result is pairwise sorted descending by
derived timestamp, and the concrete two-file folder of the claim is
returned in order [2024-03-01, 2024-01-05]. -/
theorem c7_catalog_sorted_desc :
    (∀ (tz : Int) (entries : List DirEntry),
      List.Pairwise (fun a b : RecordingMetadata => b.timestamp ≤ a.timestamp)
        (loadRecordings tz (some entries))) ∧
    (loadRecordings 0 (some [janEntry, marEntry])).map (fun r => r.filename)
      = [marEntry.name, janEntry.name] := by
  constructor
  · intro tz entries
    unfold loadRecordings
    exact pairwise_sortByTimestampDesc _
  · decide

/-- C8: a readable file entry whose name ends in `.webm` but does not
match the generated-filename pattern is still listed by refresh, with
its timestamp taken from its stored modification time. -/
theorem c8_nonmatching_webm_listed (tz : Int) (entries : List DirEntry)
    (e : DirEntry) (he : e ∈ entries) (hk : e.kind = EntryKind.file)
    (hw : webmSuffix e.name = true) (hm : findMatch e.name = none)
    (hr : e.readable = true) :
    ∃ r ∈ loadRecordings tz (some entries),
      r.filename = e.name ∧ r.timestamp = e.lastModified ∧ r.size = e.size := by
  refine ⟨⟨e.name, e.lastModified, e.size⟩, ?_, rfl, rfl, rfl⟩
  unfold loadRecordings
  rw [mem_sortByTimestampDesc, List.mem_filterMap]
  refine ⟨e, he, ?_⟩
  unfold processEntry entryTimestamp
  rw [hk, hm]
  simp [hw, hr]

/-- Non-matching `.webm` file. -/
def oddEntry : DirEntry :=
  { kind := .file, name := "notes.webm".data, size := 123, lastModified := 456,
    readable := true }

/-- C8 witness: a folder holding only `notes.webm` lists it with its
modification time. -/
theorem c8_nonmatching_webm_listed_witness :
    ∃ r ∈ loadRecordings 0 (some [oddEntry]),
      r.filename = oddEntry.name ∧ r.timestamp = oddEntry.lastModified ∧
      r.size = oddEntry.size :=
  c8_nonmatching_webm_listed 0 [oddEntry] oddEntry (by simp) rfl (by decide)
    (by decide) rfl

/-- C9: while a session is recording the microphone and camera toggle
controls are disabled, so invoking them leaves the enabled booleans,
their persisted preference values, and the rest of the state
unchanged. -/
theorem c9_toggles_disabled_while_recording (s : AppState)
    (h : s.isRecording = true) :
    micToggleClick s = s ∧ cameraToggleClick s = s := by
  unfold micToggleClick cameraToggleClick
  simp [h]

/-- C9 witness: both toggles are inert at the concrete recording state. -/
theorem c9_toggles_disabled_while_recording_witness :
    micToggleClick busyState = busyState ∧
    cameraToggleClick busyState = busyState :=
  c9_toggles_disabled_while_recording busyState rfl

/-- C10: every filename produced by `generateFilename` for in-range
fields matches the catalog's artifact pattern, and the catalog
timestamps such an entry from the parsed filename, independent of its
modification time (the fallback branch is never taken). -/
theorem c10_generated_always_matches (f : DateTimeFields) (tz : Int)
    (sz : Nat) (mt : Int) (hf : fieldsOK f) :
    (findMatch (generateFilename f)).isSome = true ∧
    entryTimestamp tz
        { kind := .file, name := generateFilename f, size := sz,
          lastModified := mt, readable := true }
      = fieldsToEpochUTC f - tz := by
  have h := findMatch_generateFilename f hf
  constructor
  · rw [h]
    rfl
  · unfold entryTimestamp
    simp only [h]
    rfl

/-- C10 witness: the statement at 2025-12-31T23:59:58Z with offset
+7200 s and an arbitrary modification time. -/
theorem c10_generated_always_matches_witness :
    (findMatch (generateFilename ⟨2025, 12, 31, 23, 59, 58, 1⟩)).isSome = true ∧
    entryTimestamp 7200
        { kind := .file, name := generateFilename ⟨2025, 12, 31, 23, 59, 58, 1⟩,
          size := 5, lastModified := 99, readable := true }
      = fieldsToEpochUTC ⟨2025, 12, 31, 23, 59, 58, 1⟩ - 7200 :=
  c10_generated_always_matches ⟨2025, 12, 31, 23, 59, 58, 1⟩ 7200 5 99 (by decide)
